import Mathlib

/-!
Shallow embedding of the netx DNS codec (dns.go, dnsunmarshal.go).

Go strings and byte slices are modelled as `List Nat` (each entry a byte,
kept below 256 by every encoder).  A Go function that can return an error
or abort with a runtime panic (index out of range on a short
`bytes.Buffer.Next` result) is modelled with the `Res` type below:
`.ok` is a successful return, `.err` a returned Go `error` value, and
`.panics` a runtime panic.
-/

namespace Netx

/-- Error values surfaced by the Go code: `readTruncated` stands for the
io.EOF / io.ErrUnexpectedEOF errors wrapped by `binary.Read`, and
`classNotSupport` for the package-level `ErrClassNotSupport`. -/
inductive GoError
  | readTruncated
  | classNotSupport
deriving DecidableEq, Repr

/-- Result of running a Go function: normal return, returned error, or
runtime panic (out-of-range slice index). -/
inductive Res (α : Type)
  | ok (a : α)
  | err (e : GoError)
  | panics
deriving DecidableEq, Repr

/-- Sequencing of Go statements: an error return or a panic aborts the
rest of the function. -/
def Res.bind {α β : Type} : Res α → (α → Res β) → Res β
  | .ok a, f => f a
  | .err e, _ => .err e
  | .panics, _ => .panics

/-- Big-endian bytes of a 16-bit value, as written by
binary.Write(buffer, binary.BigEndian, u) for a uint16. -/
def u16be (v : Nat) : List Nat :=
  [(v >>> 8) % 256, v % 256]

/-- Big-endian bytes of a 32-bit value, as written by
binary.Write(buffer, binary.BigEndian, u) for a uint32. -/
def u32be (v : Nat) : List Nat :=
  [(v >>> 24) % 256, (v >>> 16) % 256, (v >>> 8) % 256, v % 256]

/-- binary.BigEndian.Uint16(buffer.Next(2)): recombines two bytes;
panics (index out of range inside Uint16) when fewer than two bytes
remain. -/
def readU16 : List Nat → Res (Nat × List Nat)
  | a :: b :: rest => .ok (a * 256 + b, rest)
  | _ => .panics

/-- binary.BigEndian.Uint32(buffer.Next(4)): recombines four bytes;
panics when fewer than four bytes remain. -/
def readU32 : List Nat → Res (Nat × List Nat)
  | a :: b :: c :: d :: rest => .ok (a * 16777216 + b * 65536 + c * 256 + d, rest)
  | _ => .panics

/-- buffer.Next(1)[0]: one byte; panics on an empty buffer. -/
def readByte : List Nat → Res (Nat × List Nat)
  | a :: rest => .ok (a, rest)
  | [] => .panics

/-- strings.Split(s, ".") on a byte string; 46 is the dot.  Like the Go
function it always returns at least one (possibly empty) segment. -/
def splitOnDot : List Nat → List (List Nat)
  | [] => [[]]
  | b :: rest =>
    match splitOnDot rest with
    | [] => [[]]
    | s :: ss => if b = 46 then [] :: s :: ss else (b :: s) :: ss

/-- strings.Join(segments, ".") on byte strings. -/
def joinDots : List (List Nat) → List Nat
  | [] => []
  | [s] => s
  | s :: ss => s ++ 46 :: joinDots ss

/-- Label-writing loop shared by DNSQuestion.ToByte and
DNSResourceRecode.ToByte: for each dot-separated segment write
byte(len(seg)) followed by the segment bytes, then the 0x00 terminator.
The loop appends to a bytes.Buffer, hence the foldl. -/
def writeName (segs : List (List Nat)) : List Nat :=
  segs.foldl (fun acc seg => acc ++ (seg.length % 256) :: seg) [] ++ [0]

/-- Recursive restatement of `writeName` used by the decode lemmas. -/
def encodeSegs : List (List Nat) → List Nat
  | [] => [0]
  | s :: ss => (s.length % 256) :: (s ++ encodeSegs ss)

/-- Decimal digits (ASCII) of a byte value, as produced by the uitoa
inside net.IP.String for one dotted-quad component (values ≤ 255). -/
def natToDec (n : Nat) : List Nat :=
  if n < 10 then [48 + n]
  else if n < 100 then [48 + n / 10, 48 + n % 10]
  else [48 + n / 100, 48 + n / 10 % 10, 48 + n % 10]

/-- net.IPv4(a, b, c, d).String(): the canonical dotted-quad form. -/
def ipv4String (a b c d : Nat) : List Nat :=
  natToDec a ++ 46 :: (natToDec b ++ 46 :: (natToDec c ++ 46 :: natToDec d))

/-- Numeric value of a run of ASCII decimal digits (Go's dtoi). -/
def decValue (ds : List Nat) : Nat :=
  ds.foldl (fun acc d => acc * 10 + (d - 48)) 0

/-- Decides whether a byte is an ASCII decimal digit. -/
def isDigit (b : Nat) : Bool :=
  48 ≤ b && b ≤ 57

/-- One dotted-quad component as accepted by net.ParseIP: nonempty, all
digits, no leading zero (except the single digit 0), value at most
255. -/
def parseField (ds : List Nat) : Option Nat :=
  match ds with
  | [] => none
  | d :: tl =>
    if (d :: tl).all isDigit then
      if tl ≠ [] ∧ d = 48 then none
      else if decValue (d :: tl) ≤ 255 then some (decValue (d :: tl)) else none
    else none

/-- Modelled from the Go standard library: net.ParseIP(s).To4() for a
dotted-quad string, yielding the four address bytes, or none when the
string does not parse as an IPv4 address (net.ParseIP returns nil, whose
To4 is nil). -/
def parseIPv4To4 (s : List Nat) : Option (List Nat) :=
  match splitOnDot s with
  | [fa, fb, fc, fd] =>
    match parseField fa, parseField fb, parseField fc, parseField fd with
    | some a, some b, some c, some d => some [a, b, c, d]
    | _, _, _, _ => none
  | _ => none

/-- DNSFlags with its seven sub-fields (dns.go). -/
structure DNSFlags where
  QR : Nat
  OpCode : Nat
  AA : Nat
  TC : Nat
  RD : Nat
  RA : Nat
  Z : Nat
  RCode : Nat
deriving DecidableEq, Repr

/-- DNSFlags.ToBit: QR<<15 + OpCode<<11 + AA<<10 + TC<<9 + RD<<8 + RA<<7
+ RCode, in wrapping uint16 arithmetic (Z is never added). -/
def DNSFlags.ToBit (f : DNSFlags) : Nat :=
  (f.QR <<< 15 + f.OpCode <<< 11 + f.AA <<< 10 + f.TC <<< 9 +
    f.RD <<< 8 + f.RA <<< 7 + f.RCode) % 65536

/-- Flag extraction performed inside NewDNSHeader (dnsunmarshal.go). -/
def unpackFlags (flag : Nat) : DNSFlags :=
  { QR := flag >>> 15
    OpCode := (flag >>> 11) % 16
    AA := (flag >>> 10) % 2
    TC := (flag >>> 9) % 2
    RD := (flag >>> 8) % 2
    RA := (flag >>> 7) % 2
    Z := (flag >>> 4) % 8
    RCode := flag % 16 }

/-- DNSHeader (dns.go). -/
structure DNSHeader where
  TxID : Nat
  Flags : DNSFlags
  Questions : Nat
  AnswerRRs : Nat
  AuthorityRRs : Nat
  AdditionalRRs : Nat
deriving DecidableEq, Repr

/-- DNSHeader.ToByte: six big-endian 16-bit writes.  The Go error path
is unreachable (binary.Write into a bytes.Buffer cannot fail), so the
result is a plain byte list. -/
def DNSHeader.ToByte (h : DNSHeader) : List Nat :=
  u16be h.TxID ++ u16be h.Flags.ToBit ++ u16be h.Questions ++
    u16be h.AnswerRRs ++ u16be h.AuthorityRRs ++ u16be h.AdditionalRRs

/-- DNSQuestion (dns.go). -/
structure DNSQuestion where
  QuestionName : List Nat
  QuestionType : Nat
  QuestionClass : Nat
deriving DecidableEq, Repr

/-- DNSQuestion.ToByte: name labels, terminator, then big-endian type
and class.  The Go error path is unreachable. -/
def DNSQuestion.ToByte (q : DNSQuestion) : List Nat :=
  writeName (splitOnDot q.QuestionName) ++ u16be q.QuestionType ++ u16be q.QuestionClass

/-- DNSResourceRecode (dns.go). -/
structure DNSResourceRecode where
  Name : List Nat
  NamePos : Nat
  RRType : Nat
  Class : Nat
  TTL : Nat
  RDLength : Nat
  RData : List Nat
deriving DecidableEq, Repr

/-- DNSResourceRecode.ToByte: a 2-byte compression pointer
(0x01<<15)|(0x01<<14)|NamePos when NamePos > 0, otherwise the inline
name; then RRType, Class, TTL, RDLength; then, for class IN (1), the
bytes of net.ParseIP(RData).To4() (which are empty when RData does not
parse); any other class returns ErrClassNotSupport and no bytes. -/
def DNSResourceRecode.ToByte (r : DNSResourceRecode) : Res (List Nat) :=
  let namePart :=
    if 0 < r.NamePos then u16be (Nat.lor 49152 r.NamePos)
    else writeName (splitOnDot r.Name)
  if r.Class = 1 then
    .ok (namePart ++ u16be r.RRType ++ u16be r.Class ++ u32be r.TTL ++
      u16be r.RDLength ++ (parseIPv4To4 r.RData).getD [])
  else .err .classNotSupport

/-- DNSMessage (dns.go). -/
structure DNSMessage where
  Header : DNSHeader
  Questions : List DNSQuestion
  ResourceRecodes : List DNSResourceRecode
deriving DecidableEq, Repr

/-- Question loop of DNSMessage.ToByte: for i < Header.Questions write
Questions[i]; indexing past the end of the slice panics. -/
def questionsToByte : Nat → List DNSQuestion → Res (List Nat)
  | 0, _ => .ok []
  | _ + 1, [] => .panics
  | n + 1, q :: qs => (questionsToByte n qs).bind fun bs => .ok (q.ToByte ++ bs)

/-- Resource-record loop of DNSMessage.ToByte. -/
def recordsToByte : List DNSResourceRecode → Res (List Nat)
  | [] => .ok []
  | r :: rs => r.ToByte.bind fun b => (recordsToByte rs).bind fun bs => .ok (b ++ bs)

/-- DNSMessage.ToByte: header, count-driven questions, then all resource
records. -/
def DNSMessage.ToByte (m : DNSMessage) : Res (List Nat) :=
  (questionsToByte m.Header.Questions m.Questions).bind fun qb =>
    (recordsToByte m.ResourceRecodes).bind fun rb =>
      .ok (m.Header.ToByte ++ qb ++ rb)

/-- Query message built by LookUp for a host: TxID 1, RD 1, one type-A
class-IN question, no resource records. -/
def lookupMessage (host : List Nat) : DNSMessage :=
  { Header :=
      { TxID := 1
        Flags := { QR := 0, OpCode := 0, AA := 0, TC := 0, RD := 1, RA := 0, Z := 0, RCode := 0 }
        Questions := 1
        AnswerRRs := 0
        AuthorityRRs := 0
        AdditionalRRs := 0 }
    Questions := [{ QuestionName := host, QuestionType := 1, QuestionClass := 1 }]
    ResourceRecodes := [] }

/-- Label-reading loop of NewDNSQuestion, with the loop counter made
explicit as fuel so the recursion is structural: read a length byte with
binary.Read (a returned error on an exhausted buffer, modelled as none),
stop on 0, otherwise read that many label bytes (error when fewer
remain) and continue.  Every iteration consumes at least two bytes, so
the fuel supplied by `readLabels` always strictly dominates the input
length and the fuel-exhaustion branch is unreachable there. -/
def readLabelsAux : Nat → List Nat → Option (List (List Nat) × List Nat)
  | _, [] => none
  | 0, _ :: _ => none
  | fuel + 1, n :: rest =>
    if n = 0 then some ([], rest)
    else if rest.length < n then none
    else
      match readLabelsAux fuel (rest.drop n) with
      | none => none
      | some (segs, r) => some (rest.take n :: segs, r)

/-- Label-reading loop of NewDNSQuestion on a buffer. -/
def readLabels (l : List Nat) : Option (List (List Nat) × List Nat) :=
  readLabelsAux l.length l

/-- Name phase of NewDNSQuestion: the label loop followed by
strings.Join(segments, "."). -/
def readName (l : List Nat) : Res (List Nat × List Nat) :=
  match readLabels l with
  | none => .err .readTruncated
  | some (segs, rest) => .ok (joinDots segs, rest)

/-- NewDNSQuestion (dnsunmarshal.go): the name loop (errors are
returned), then QuestionType and QuestionClass via
binary.BigEndian.Uint16(buffer.Next(2)) (panics when short). -/
def NewDNSQuestion (l : List Nat) : Res (DNSQuestion × List Nat) :=
  (readName l).bind fun nr =>
    (readU16 nr.2).bind fun tr =>
      (readU16 tr.2).bind fun cr =>
        .ok ({ QuestionName := nr.1, QuestionType := tr.1, QuestionClass := cr.1 }, cr.2)

/-- NewDNSHeader (dnsunmarshal.go): six 16-bit reads via
buffer.Next(2); the function has no error return, so short input can
only panic. -/
def NewDNSHeader (l : List Nat) : Res (DNSHeader × List Nat) :=
  (readU16 l).bind fun ir =>
    (readU16 ir.2).bind fun fr =>
      (readU16 fr.2).bind fun qr =>
        (readU16 qr.2).bind fun ar =>
          (readU16 ar.2).bind fun ur =>
            (readU16 ur.2).bind fun dr =>
              .ok ({ TxID := ir.1
                     Flags := unpackFlags fr.1
                     Questions := qr.1
                     AnswerRRs := ar.1
                     AuthorityRRs := ur.1
                     AdditionalRRs := dr.1 }, dr.2)

/-- NewDNSResourceRecode (dnsunmarshal.go): peek the tag byte (panics on
an empty buffer), unread it; when the top two bits are 11 read the
2-byte pointer and keep its low 14 bits as NamePos (an inline name is
never consumed); then RRType, Class, TTL, RDLength; when RRType = 1 and
RDLength = 4 read four single bytes and render them with
net.IPv4(...).String(), otherwise silently consume up to RDLength
bytes.  The inline Name field is never populated. -/
def NewDNSResourceRecode (l : List Nat) : Res (DNSResourceRecode × List Nat) :=
  match l with
  | [] => .panics
  | b0 :: _ =>
    (if b0 >>> 6 = 3 then
        (readU16 l).bind fun wr => .ok (((wr.1 <<< 2) % 65536) >>> 2, wr.2)
      else .ok (0, l)).bind fun pr =>
      (readU16 pr.2).bind fun tr =>
        (readU16 tr.2).bind fun cr =>
          (readU32 cr.2).bind fun ttlr =>
            (readU16 ttlr.2).bind fun lr =>
              if tr.1 = 1 ∧ lr.1 = 4 then
                (readByte lr.2).bind fun x1 =>
                  (readByte x1.2).bind fun x2 =>
                    (readByte x2.2).bind fun x3 =>
                      (readByte x3.2).bind fun x4 =>
                        .ok ({ Name := [], NamePos := pr.1, RRType := tr.1, Class := cr.1,
                               TTL := ttlr.1, RDLength := lr.1,
                               RData := ipv4String x1.1 x2.1 x3.1 x4.1 }, x4.2)
              else
                .ok ({ Name := [], NamePos := pr.1, RRType := tr.1, Class := cr.1,
                       TTL := ttlr.1, RDLength := lr.1, RData := [] }, lr.2.drop lr.1)

/-! Helper lemmas. -/

/-- The buffer-appending label loop equals its recursive restatement. -/
theorem writeName_eq_encodeSegs (segs : List (List Nat)) :
    writeName segs = encodeSegs segs := by
  have aux : ∀ (ss : List (List Nat)) (acc : List Nat),
      ss.foldl (fun a seg => a ++ (seg.length % 256) :: seg) acc ++ [0] = acc ++ encodeSegs ss := by
    intro ss
    induction ss with
    | nil => intro acc; simp [encodeSegs]
    | cons s tl ih =>
      intro acc
      simp only [List.foldl_cons, encodeSegs]
      rw [ih]
      simp
  simpa [writeName] using aux segs []

/-- strings.Split always returns at least one segment. -/
theorem splitOnDot_ne_nil (l : List Nat) : splitOnDot l ≠ [] := by
  cases l with
  | nil => simp [splitOnDot]
  | cons b rest =>
    simp only [splitOnDot]
    cases h : splitOnDot rest with
    | nil => simp
    | cons s ss =>
      by_cases hb : b = 46 <;> simp [hb]

/-- Joining the dot-split of a byte string gives the string back. -/
theorem joinDots_splitOnDot (l : List Nat) : joinDots (splitOnDot l) = l := by
  induction l with
  | nil => simp [splitOnDot, joinDots]
  | cons b rest ih =>
    cases h : splitOnDot rest with
    | nil => exact absurd h (splitOnDot_ne_nil rest)
    | cons s ss =>
      rw [h] at ih
      simp only [splitOnDot, h]
      by_cases hb : b = 46
      · subst hb
        simp only [if_pos rfl, joinDots]
        exact congrArg (46 :: ·) ih
      · rw [if_neg hb]
        cases ss with
        | nil => simp only [joinDots] at ih ⊢; rw [ih]
        | cons t ts => simp only [joinDots] at ih ⊢; rw [List.cons_append, ih]

/-- The label loop reads back an encoded label sequence exactly,
leaving the trailing bytes untouched, for labels of length 1 to 63. -/
theorem readLabelsAux_encodeSegs (segs : List (List Nat))
    (h : ∀ s ∈ segs, 1 ≤ s.length ∧ s.length ≤ 63) :
    ∀ (fuel : Nat) (tail : List Nat), (encodeSegs segs ++ tail).length ≤ fuel →
      readLabelsAux fuel (encodeSegs segs ++ tail) = some (segs, tail) := by
  induction segs with
  | nil =>
    intro fuel tail hf
    simp only [encodeSegs, List.cons_append, List.nil_append] at hf ⊢
    cases fuel with
    | zero => simp at hf
    | succ f => simp [readLabelsAux]
  | cons s tl ih =>
    intro fuel tail hf
    obtain ⟨hs1, hs63⟩ := h s (by simp)
    have hmod : s.length % 256 = s.length := Nat.mod_eq_of_lt (by omega)
    simp only [encodeSegs, List.cons_append, List.append_assoc] at hf ⊢
    cases fuel with
    | zero => simp at hf
    | succ f =>
      have hnz : s.length % 256 ≠ 0 := by omega
      have hlen : ¬ (s ++ (encodeSegs tl ++ tail)).length < s.length % 256 := by
        simp [hmod]
      rw [readLabelsAux, if_neg hnz, if_neg hlen, hmod,
        List.take_left' rfl, List.drop_left' rfl,
        ih (fun x hx => h x (by simp [hx])) f tail (by simp at hf ⊢; omega)]

/-- The label loop on a strict prefix of an encoded label sequence
always reports truncation (none), for labels of length 1 to 63. -/
theorem readLabelsAux_short (segs : List (List Nat))
    (h : ∀ s ∈ segs, 1 ≤ s.length ∧ s.length ≤ 63) :
    ∀ (fuel k : Nat), k < (encodeSegs segs).length →
      readLabelsAux fuel ((encodeSegs segs).take k) = none := by
  induction segs with
  | nil =>
    intro fuel k hk
    simp only [encodeSegs, List.length_cons, List.length_nil] at hk
    have : k = 0 := by omega
    subst this
    cases fuel <;> simp [readLabelsAux]
  | cons s tl ih =>
    intro fuel k hk
    obtain ⟨hs1, hs63⟩ := h s (by simp)
    have hmod : s.length % 256 = s.length := Nat.mod_eq_of_lt (by omega)
    simp only [encodeSegs, List.length_cons, List.length_append] at hk
    cases k with
    | zero => cases fuel <;> simp [readLabelsAux]
    | succ j =>
      cases fuel with
      | zero => simp [encodeSegs, readLabelsAux, List.take_succ_cons]
      | succ f =>
        simp only [encodeSegs, List.take_succ_cons]
        have hnz : s.length % 256 ≠ 0 := by omega
        rw [readLabelsAux, if_neg hnz]
        by_cases hshort : ((s ++ encodeSegs tl).take j).length < s.length % 256
        · rw [if_pos hshort]
        · rw [if_neg hshort]
          have hjlen : s.length ≤ j := by
            simp only [List.length_take, List.length_append, hmod] at hshort
            omega
          have htake : (s ++ encodeSegs tl).take j = s ++ (encodeSegs tl).take (j - s.length) := by
            rw [List.take_append_eq_append_take, List.take_of_length_le hjlen]
          rw [hmod, htake, List.take_left' rfl, List.drop_left' rfl,
            ih (fun x hx => h x (by simp [hx])) f (j - s.length) (by omega)]

/-- Reading back the big-endian bytes of a 16-bit value. -/
theorem readU16_u16be (v : Nat) (hv : v < 65536) (rest : List Nat) :
    readU16 (u16be v ++ rest) = .ok (v, rest) := by
  simp only [u16be, List.cons_append, List.nil_append, readU16]
  rw [Nat.shiftRight_eq_div_pow]
  norm_num
  omega

/-- Reading back the big-endian bytes of a 32-bit value. -/
theorem readU32_u32be (v : Nat) (hv : v < 4294967296) (rest : List Nat) :
    readU32 (u32be v ++ rest) = .ok (v, rest) := by
  simp only [u32be, List.cons_append, List.nil_append, readU32]
  rw [Nat.shiftRight_eq_div_pow, Nat.shiftRight_eq_div_pow, Nat.shiftRight_eq_div_pow]
  norm_num
  omega

/-- A header always encodes to exactly 12 bytes. -/
theorem headerToByte_length (h : DNSHeader) : h.ToByte.length = 12 := by
  simp [DNSHeader.ToByte, u16be]

/-- NewDNSHeader panics on any input shorter than 12 bytes: all its
reads go through buffer.Next(2) and it has no error return. -/
theorem newDNSHeader_short (l : List Nat) (h : l.length < 12) :
    NewDNSHeader l = .panics := by
  rcases l with _ | ⟨a1, _ | ⟨a2, _ | ⟨a3, _ | ⟨a4, _ | ⟨a5, _ | ⟨a6, _ | ⟨a7, _ | ⟨a8, _ |
    ⟨a9, _ | ⟨a10, _ | ⟨a11, _ | ⟨a12, l⟩⟩⟩⟩⟩⟩⟩⟩⟩⟩⟩⟩ <;>
    simp_all [NewDNSHeader, readU16, Res.bind] <;> omega

/-- The pointer word 0xC000 ||| NamePos stays below 2^16 when NamePos
does. -/
theorem lor_lt_65536 (p : Nat) (hp : p < 65536) : Nat.lor 49152 p < 65536 := by
  have := Nat.or_lt_two_pow (x := 49152) (y := p) (n := 16) (by norm_num) (by norm_num [hp])
  simpa using this

/-- The pointer word 0xC000 ||| NamePos keeps both top bits set. -/
theorem lor_ge_49152 (p : Nat) (hp : p < 65536) : 49152 ≤ Nat.lor 49152 p := by
  have h14 : (Nat.lor 49152 p).testBit 14 = true := by
    rw [show Nat.lor 49152 p = 49152 ||| p from rfl, Nat.testBit_or]
    simp [show Nat.testBit 49152 14 = true by decide]
  have h15 : (Nat.lor 49152 p).testBit 15 = true := by
    rw [show Nat.lor 49152 p = 49152 ||| p from rfl, Nat.testBit_or]
    simp [show Nat.testBit 49152 15 = true by decide]
  rw [Nat.testBit_to_div_mod] at h14 h15
  have h14' := of_decide_eq_true h14
  have h15' := of_decide_eq_true h15
  have hlt := lor_lt_65536 p hp
  norm_num at h14' h15'
  omega

/-- Shifting a digit-fold accumulator. -/
theorem decValue_shift (ds : List Nat) :
    ∀ acc : Nat, ds.foldl (fun acc d => acc * 10 + (d - 48)) acc =
      acc * 10 ^ ds.length + ds.foldl (fun acc d => acc * 10 + (d - 48)) 0 := by
  induction ds with
  | nil => intro acc; simp
  | cons d tl ih =>
    intro acc
    simp only [List.foldl_cons, List.length_cons]
    rw [ih (acc * 10 + (d - 48)), ih (0 * 10 + (d - 48))]
    ring

/-- A field accepted by the dotted-quad parser prints back to itself:
accepted fields carry no leading zeros, so they are exactly the
canonical decimal form of their value. -/
theorem parseField_eq (ds : List Nat) (v : Nat) (hp : parseField ds = some v) :
    natToDec v = ds ∧ v ≤ 255 := by
  match ds with
  | [] => simp [parseField] at hp
  | d :: tl =>
    simp only [parseField] at hp
    split_ifs at hp with hA hB hC <;> simp at hp
    subst hp
    have hall : ∀ x ∈ d :: tl, 48 ≤ x ∧ x ≤ 57 := by
      intro x hx
      have hx2 := List.all_eq_true.mp hA x hx
      simpa [isDigit] using hx2
    obtain ⟨hd1, hd2⟩ := hall d (by simp)
    match tl with
    | [] =>
      refine ⟨?_, hC⟩
      have hv : decValue [d] = d - 48 := by simp [decValue]
      rw [hv, natToDec, if_pos (by omega)]
      simp only [List.cons.injEq, and_true]
      omega
    | [e] =>
      obtain ⟨he1, he2⟩ := hall e (by simp)
      have hd48 : d ≠ 48 := fun h => hB ⟨by simp, h⟩
      refine ⟨?_, hC⟩
      have hv : decValue [d, e] = (d - 48) * 10 + (e - 48) := by
        simp [decValue]
      rw [hv] at hC ⊢
      rw [natToDec, if_neg (by omega), if_pos (by omega)]
      simp only [List.cons.injEq, and_true]
      omega
    | [e, f] =>
      obtain ⟨he1, he2⟩ := hall e (by simp)
      obtain ⟨hf1, hf2⟩ := hall f (by simp)
      have hd48 : d ≠ 48 := fun h => hB ⟨by simp, h⟩
      have hv : decValue [d, e, f] = (d - 48) * 100 + (e - 48) * 10 + (f - 48) := by
        simp [decValue]; ring
      rw [hv] at hC ⊢
      refine ⟨?_, hC⟩
      rw [natToDec, if_neg (by omega), if_neg (by omega)]
      simp only [List.cons.injEq, and_true]
      omega
    | e :: f :: g :: tl2 =>
      exfalso
      have hd48 : d ≠ 48 := fun h => hB ⟨by simp, h⟩
      have hdv : decValue (d :: e :: f :: g :: tl2) =
          (d - 48) * 10 ^ (e :: f :: g :: tl2).length + decValue (e :: f :: g :: tl2) := by
        simp only [decValue, List.foldl_cons]
        rw [show (0 : Nat) * 10 + (d - 48) = d - 48 by omega]
        have := decValue_shift (e :: f :: g :: tl2) (d - 48)
        simp only [decValue, List.foldl_cons] at this ⊢
        omega
      have hpow : 1000 ≤ 10 ^ (e :: f :: g :: tl2).length := by
        calc (1000 : Nat) = 10 ^ 3 := by norm_num
          _ ≤ 10 ^ (e :: f :: g :: tl2).length :=
            Nat.pow_le_pow_right (by norm_num) (by simp)
      have h1000 : 1000 ≤ decValue (d :: e :: f :: g :: tl2) := by
        rw [hdv]
        calc (1000 : Nat) ≤ 10 ^ (e :: f :: g :: tl2).length := hpow
          _ ≤ (d - 48) * 10 ^ (e :: f :: g :: tl2).length :=
            Nat.le_mul_of_pos_left _ (by omega)
          _ ≤ (d - 48) * 10 ^ (e :: f :: g :: tl2).length + decValue (e :: f :: g :: tl2) :=
            Nat.le_add_right _ _
      omega

/-- A string accepted by the IPv4 parser is the canonical dotted quad of
its four byte values. -/
theorem parseIPv4_eq (s : List Nat) (a b c d : Nat)
    (hp : parseIPv4To4 s = some [a, b, c, d]) :
    s = ipv4String a b c d ∧ a ≤ 255 ∧ b ≤ 255 ∧ c ≤ 255 ∧ d ≤ 255 := by
  unfold parseIPv4To4 at hp
  split at hp
  case h_2 => simp at hp
  case h_1 fa fb fc fd heq =>
    split at hp
    case h_2 => simp at hp
    case h_1 a0 b0 c0 d0 ha hb hc hd =>
      rw [Option.some_inj] at hp
      simp only [List.cons.injEq, and_true] at hp
      obtain ⟨h1, h2, h3, h4⟩ := hp
      rw [h1] at ha
      rw [h2] at hb
      rw [h3] at hc
      rw [h4] at hd
      obtain ⟨hfa, ha255⟩ := parseField_eq fa a ha
      obtain ⟨hfb, hb255⟩ := parseField_eq fb b hb
      obtain ⟨hfc, hc255⟩ := parseField_eq fc c hc
      obtain ⟨hfd, hd255⟩ := parseField_eq fd d hd
      refine ⟨?_, ha255, hb255, hc255, hd255⟩
      have hs := joinDots_splitOnDot s
      rw [heq] at hs
      simp only [joinDots] at hs
      rw [← hs, ipv4String, hfa, hfb, hfc, hfd]

/-- The IPv4 parser always yields exactly four bytes. -/
theorem parseIPv4_length (s : List Nat) (bs : List Nat)
    (hp : parseIPv4To4 s = some bs) : bs.length = 4 := by
  unfold parseIPv4To4 at hp
  split at hp
  case h_2 => simp at hp
  case h_1 fa fb fc fd heq =>
    split at hp
    case h_2 => simp at hp
    case h_1 a0 b0 c0 d0 ha hb hc hd =>
      rw [Option.some_inj] at hp
      subst hp
      rfl

/-- The first byte of an encoded compression pointer has both top bits
set, so the decoder's tag test sees 3. -/
theorem ptr_head_tag (p : Nat) (hp : p < 65536) :
    ((Nat.lor 49152 p >>> 8) % 256) >>> 6 = 3 := by
  have h1 := lor_ge_49152 p hp
  have h2 := lor_lt_65536 p hp
  rw [Nat.shiftRight_eq_div_pow, Nat.shiftRight_eq_div_pow]
  norm_num
  omega

/-- Byte-level form of the encoder output for a pointer-form class-IN
type-A record with RDLength 4 and parseable RData. -/
theorem rr_encode_ptr (r : DNSResourceRecode) (a b c d : Nat)
    (hC : r.Class = 1) (hT : r.RRType = 1) (hL : r.RDLength = 4) (hP : 0 < r.NamePos)
    (hR : parseIPv4To4 r.RData = some [a, b, c, d]) :
    r.ToByte = Res.ok ((Nat.lor 49152 r.NamePos >>> 8) % 256 :: Nat.lor 49152 r.NamePos % 256 ::
      0 :: 1 :: 0 :: 1 :: (r.TTL >>> 24) % 256 :: (r.TTL >>> 16) % 256 :: (r.TTL >>> 8) % 256 ::
      r.TTL % 256 :: 0 :: 4 :: [a, b, c, d]) := by
  simp [DNSResourceRecode.ToByte, hC, hT, hL, hP, hR, u16be, u32be]

/-- Evaluation of the record decoder on pointer-form type-A class-IN
bytes with RDLength 4: the pointer branch is taken whenever the tag
test sees 3, and the four RDATA bytes are rendered as a dotted quad. -/
theorem rr_decode_ptr_bytes (p0 p1 t3 t2 t1 t0 a b c d : Nat) (htag : p0 >>> 6 = 3) :
    NewDNSResourceRecode
        (p0 :: p1 :: 0 :: 1 :: 0 :: 1 :: t3 :: t2 :: t1 :: t0 :: 0 :: 4 :: [a, b, c, d]) =
      Res.ok ({ Name := [], NamePos := (((p0 * 256 + p1) <<< 2) % 65536) >>> 2, RRType := 1,
                Class := 1, TTL := t3 * 16777216 + t2 * 65536 + t1 * 256 + t0, RDLength := 4,
                RData := ipv4String a b c d }, []) := by
  simp [NewDNSResourceRecode, Res.bind, readU16, readU32, readByte, htag]

/-- A question whose name has been read in full but whose type/class
trailer is cut short always panics: both trailer fields are read via
buffer.Next(2). -/
theorem newDNSQuestion_short_tail (segs : List (List Nat))
    (h : ∀ s ∈ segs, 1 ≤ s.length ∧ s.length ≤ 63) (tail : List Nat)
    (ht : tail.length < 4) :
    NewDNSQuestion (encodeSegs segs ++ tail) = Res.panics := by
  have hrl : readLabels (encodeSegs segs ++ tail) = some (segs, tail) :=
    readLabelsAux_encodeSegs segs h (encodeSegs segs ++ tail).length tail (le_refl _)
  rcases tail with _ | ⟨x1, _ | ⟨x2, _ | ⟨x3, _ | ⟨x4, t⟩⟩⟩⟩
  · rw [List.append_nil] at hrl
    simp [NewDNSQuestion, readName, hrl, Res.bind, readU16]
  · simp [NewDNSQuestion, readName, hrl, Res.bind, readU16]
  · simp [NewDNSQuestion, readName, hrl, Res.bind, readU16]
  · simp [NewDNSQuestion, readName, hrl, Res.bind, readU16]
  · exfalso; simp at ht; omega

/-- Flag extraction of a word packed from in-range sub-fields
recovers every packed sub-field and reads Z as 0. -/
theorem repack_fields (q o aa tc rd ra rc : Nat) (hq : q ≤ 1) (ho : o ≤ 15) (ha : aa ≤ 1)
    (ht : tc ≤ 1) (hr : rd ≤ 1) (hra : ra ≤ 1) (hrc : rc ≤ 15) :
    unpackFlags ((q <<< 15 + o <<< 11 + aa <<< 10 + tc <<< 9 + rd <<< 8 + ra <<< 7 + rc)
        % 65536) =
      { QR := q, OpCode := o, AA := aa, TC := tc, RD := rd, RA := ra, Z := 0, RCode := rc } := by
  have hshift : q <<< 15 + o <<< 11 + aa <<< 10 + tc <<< 9 + rd <<< 8 + ra <<< 7 + rc =
      q * 32768 + o * 2048 + aa * 1024 + tc * 512 + rd * 256 + ra * 128 + rc := by
    simp [Nat.shiftLeft_eq]
  rw [hshift]
  have hw : (q * 32768 + o * 2048 + aa * 1024 + tc * 512 + rd * 256 + ra * 128 + rc) % 65536 =
      q * 32768 + o * 2048 + aa * 1024 + tc * 512 + rd * 256 + ra * 128 + rc := by omega
  unfold unpackFlags
  rw [hw]
  simp only [Nat.shiftRight_eq_div_pow, DNSFlags.mk.injEq]
  norm_num
  refine ⟨by omega, by omega, by omega, by omega, by omega, by omega, by omega, by omega⟩

/-! Claim theorems. -/

/-- Claim C1 (amended): the decoder never reads an inline record name,
so the round trip holds only for pointer-form records (NamePos > 0,
whose decoded Name is the empty string the encoder side must also
carry).  For every class-IN type-A record with RDLength 4, a 16-bit
positive NamePos, a 32-bit TTL, empty Name and an RData string accepted
by the IPv4 parser, decoding the encoded bytes reproduces Name, RRType,
Class, TTL and the RData address string. -/
theorem c1_a_in_roundtrip_pointer_form (r : DNSResourceRecode) (a b c d : Nat)
    (hC : r.Class = 1) (hT : r.RRType = 1) (hL : r.RDLength = 4)
    (hP : 0 < r.NamePos) (hP2 : r.NamePos < 65536) (hTTL : r.TTL < 4294967296)
    (hN : r.Name = []) (hR : parseIPv4To4 r.RData = some [a, b, c, d]) :
    ∃ bs r2 rest, r.ToByte = Res.ok bs ∧ NewDNSResourceRecode bs = Res.ok (r2, rest) ∧
      r2.Name = r.Name ∧ r2.RRType = r.RRType ∧ r2.Class = r.Class ∧
      r2.TTL = r.TTL ∧ r2.RData = r.RData := by
  obtain ⟨hs, ha, hb, hc2, hd2⟩ := parseIPv4_eq r.RData a b c d hR
  have henc := rr_encode_ptr r a b c d hC hT hL hP hR
  have htag := ptr_head_tag r.NamePos hP2
  have hdec := rr_decode_ptr_bytes ((Nat.lor 49152 r.NamePos >>> 8) % 256)
    (Nat.lor 49152 r.NamePos % 256) ((r.TTL >>> 24) % 256) ((r.TTL >>> 16) % 256)
    ((r.TTL >>> 8) % 256) (r.TTL % 256) a b c d htag
  refine ⟨_, _, _, henc, hdec, by simp [hN], by simp [hT], by simp [hC], ?_, by simp [hs]⟩
  show (r.TTL >>> 24) % 256 * 16777216 + (r.TTL >>> 16) % 256 * 65536 +
      (r.TTL >>> 8) % 256 * 256 + r.TTL % 256 = r.TTL
  rw [Nat.shiftRight_eq_div_pow, Nat.shiftRight_eq_div_pow, Nat.shiftRight_eq_div_pow]
  norm_num
  omega

/-- Claim C1 counterexample: an inline-name record (NamePos = 0) with
Class IN, type A, RDLength 4 and valid dotted-quad RData does not round
trip: the decoder never consumes the inline name, so it misreads the
name bytes as the fixed fields (decoded RRType is 353, not 1, and the
decoded Name and RData are empty). -/
theorem c1_counterexample_inline_name :
    ({ Name := [97], NamePos := 0, RRType := 1, Class := 1, TTL := 0, RDLength := 4,
       RData := [49, 46, 50, 46, 51, 46, 52] } : DNSResourceRecode).ToByte =
        Res.ok [1, 97, 0, 0, 1, 0, 1, 0, 0, 0, 0, 0, 4, 1, 2, 3, 4] ∧
      NewDNSResourceRecode [1, 97, 0, 0, 1, 0, 1, 0, 0, 0, 0, 0, 4, 1, 2, 3, 4] =
        Res.ok ({ Name := [], NamePos := 0, RRType := 353, Class := 0, TTL := 16777472,
                  RDLength := 0, RData := [] }, [0, 0, 4, 1, 2, 3, 4]) ∧
      (353 : Nat) ≠ 1 := by
  decide

/-- Claim C1 witness: a concrete pointer-form record round trip. -/
theorem c1_witness :
    ∃ bs r2 rest,
      ({ Name := [], NamePos := 12, RRType := 1, Class := 1, TTL := 300, RDLength := 4,
         RData := [49, 46, 50, 46, 51, 46, 52] } : DNSResourceRecode).ToByte = Res.ok bs ∧
        NewDNSResourceRecode bs = Res.ok (r2, rest) ∧ r2.Name = [] ∧ r2.RRType = 1 ∧
        r2.Class = 1 ∧ r2.TTL = 300 ∧ r2.RData = [49, 46, 50, 46, 51, 46, 52] :=
  c1_a_in_roundtrip_pointer_form _ 1 2 3 4 (by decide) (by decide) (by decide) (by decide)
    (by decide) (by decide) (by decide) (by decide)

/-- Claim C2: the query message LookUp builds for host "example.com"
(TxID 1, RD 1, one type-A class-IN question) serializes to exactly the
header 00 01 01 00 00 01 00 00 00 00 00 00, the name bytes
07 "example" 03 "com" 00, and 00 01 00 01. -/
theorem c2_lookup_query_bytes :
    (lookupMessage [101, 120, 97, 109, 112, 108, 101, 46, 99, 111, 109]).ToByte =
      Res.ok ([0, 1, 1, 0, 0, 1, 0, 0, 0, 0, 0, 0] ++
        [7, 101, 120, 97, 109, 112, 108, 101, 3, 99, 111, 109, 0] ++ [0, 1, 0, 1]) := by
  decide

/-- Claim C3 (amended): for every 16-bit flag word v, repacking the
extracted flags and re-extracting reproduces QR, OpCode, AA, TC, RD,
RA and RCode bit-for-bit, but not Z: ToBit never emits the Z field, so
Z always re-extracts as 0. -/
theorem c3_flags_repack (v : Nat) (hv : v < 65536) :
    unpackFlags (DNSFlags.ToBit (unpackFlags v)) = { unpackFlags v with Z := 0 } := by
  have key := repack_fields (v >>> 15) ((v >>> 11) % 16) ((v >>> 10) % 2) ((v >>> 9) % 2)
    ((v >>> 8) % 2) ((v >>> 7) % 2) (v % 16)
    (by rw [Nat.shiftRight_eq_div_pow]; norm_num; omega) (by omega) (by omega) (by omega)
    (by omega) (by omega) (by omega)
  have hTB : DNSFlags.ToBit (unpackFlags v) =
      ((v >>> 15) <<< 15 + ((v >>> 11) % 16) <<< 11 + ((v >>> 10) % 2) <<< 10 +
        ((v >>> 9) % 2) <<< 9 + ((v >>> 8) % 2) <<< 8 + ((v >>> 7) % 2) <<< 7 +
        v % 16) % 65536 := rfl
  rw [hTB, key]
  rfl

/-- Claim C3 counterexample: at v = 16 (only a Z bit set) the Z
sub-field does not survive the repack, so the claim that all seven
sub-fields (including Z) are reproduced is false. -/
theorem c3_counterexample_z_dropped :
    (unpackFlags (DNSFlags.ToBit (unpackFlags 16))).Z ≠ (unpackFlags 16).Z := by
  decide

/-- Claim C3 witness: the amended repack law at v = 4660. -/
theorem c3_witness :
    unpackFlags (DNSFlags.ToBit (unpackFlags 4660)) = { unpackFlags 4660 with Z := 0 } :=
  c3_flags_repack 4660 (by decide)

/-- Claim C4: for every name whose dot-split labels are all 1 to 63
bytes long, the label-reading loop of NewDNSQuestion applied to the
output of the label-writing loop of DNSQuestion.ToByte returns the
original name exactly, consuming all bytes. -/
theorem c4_name_roundtrip (name : List Nat)
    (h : ∀ seg ∈ splitOnDot name, 1 ≤ seg.length ∧ seg.length ≤ 63) :
    readName (writeName (splitOnDot name)) = Res.ok (name, []) := by
  rw [writeName_eq_encodeSegs]
  have hfull : readLabels (encodeSegs (splitOnDot name)) = some (splitOnDot name, []) := by
    have h2 := readLabelsAux_encodeSegs (splitOnDot name) h
      (encodeSegs (splitOnDot name) ++ []).length [] (le_refl _)
    simpa [readLabels] using h2
  rw [readName, hfull]
  simp [joinDots_splitOnDot]

/-- Claim C4 witness: round trip of the concrete name "ab.c". -/
theorem c4_witness : readName (writeName (splitOnDot [97, 98, 46, 99])) =
    Res.ok ([97, 98, 46, 99], []) :=
  c4_name_roundtrip [97, 98, 46, 99] (by decide)

/-- Claim C5 (amended): decoding a strict prefix of a valid encoding
never yields a successful value, but the failure is a Truncation error
only inside the question's name loop (the binary.Read calls); every
other short read goes through buffer.Next and aborts with an
out-of-range access (a panic).  In particular NewDNSHeader, which has
no error return, panics on every strict prefix of a 12-byte header;
NewDNSQuestion returns the truncation error when the cut falls inside
the name and panics when it falls in the type/class trailer; and
NewDNSResourceRecode panics on every strict prefix of a pointer-form
class-IN type-A record with RDLength 4. -/
theorem c5_prefix_decode :
    (∀ (hdr : DNSHeader) (k : Nat), k < 12 → NewDNSHeader (hdr.ToByte.take k) = Res.panics) ∧
      (∀ (q : DNSQuestion) (k : Nat),
        (∀ seg ∈ splitOnDot q.QuestionName, 1 ≤ seg.length ∧ seg.length ≤ 63) →
        k < q.ToByte.length →
        (k < (writeName (splitOnDot q.QuestionName)).length →
          NewDNSQuestion (q.ToByte.take k) = Res.err GoError.readTruncated) ∧
          ((writeName (splitOnDot q.QuestionName)).length ≤ k →
            NewDNSQuestion (q.ToByte.take k) = Res.panics)) ∧
      (∀ (r : DNSResourceRecode) (a b c d k : Nat),
        r.Class = 1 → r.RRType = 1 → r.RDLength = 4 → 0 < r.NamePos → r.NamePos < 65536 →
        parseIPv4To4 r.RData = some [a, b, c, d] → k < 16 →
        ∃ bs, r.ToByte = Res.ok bs ∧ NewDNSResourceRecode (bs.take k) = Res.panics) := by
  refine ⟨?_, ?_, ?_⟩
  · intro hdr k hk
    exact newDNSHeader_short _ (by rw [List.length_take, headerToByte_length]; omega)
  · intro q k hlab hk
    have hq : q.ToByte = encodeSegs (splitOnDot q.QuestionName) ++
        (u16be q.QuestionType ++ u16be q.QuestionClass) := by
      simp [DNSQuestion.ToByte, writeName_eq_encodeSegs]
    have hwlen : (writeName (splitOnDot q.QuestionName)).length =
        (encodeSegs (splitOnDot q.QuestionName)).length := by
      rw [writeName_eq_encodeSegs]
    have hlen : q.ToByte.length = (encodeSegs (splitOnDot q.QuestionName)).length + 4 := by
      rw [hq]; simp [u16be]
    constructor
    · intro hcase
      rw [hwlen] at hcase
      rw [hq, List.take_append_of_le_length (by omega)]
      have hnone : readLabels ((encodeSegs (splitOnDot q.QuestionName)).take k) = none :=
        readLabelsAux_short _ hlab _ k hcase
      simp [NewDNSQuestion, readName, hnone, Res.bind]
    · intro hcase
      rw [hwlen] at hcase
      rw [hq, List.take_append_eq_append_take, List.take_of_length_le (by omega)]
      exact newDNSQuestion_short_tail _ hlab _ (by
        rw [List.length_take]
        have h4 : (u16be q.QuestionType ++ u16be q.QuestionClass).length = 4 := by
          simp [u16be]
        omega)
  · intro r a b c d k hC hT hL hP hP2 hR hk
    have henc := rr_encode_ptr r a b c d hC hT hL hP hR
    refine ⟨_, henc, ?_⟩
    have htag := ptr_head_tag r.NamePos hP2
    interval_cases k <;>
      simp [NewDNSResourceRecode, Res.bind, readU16, readU32, readByte, htag]

/-- Claim C5 counterexample: the 2-byte strict prefix of a valid
12-byte header encoding makes NewDNSHeader abort with an out-of-range
access (panic) instead of returning a Truncation failure. -/
theorem c5_counterexample_header_prefix_panics :
    ({ TxID := 1,
       Flags := { QR := 0, OpCode := 0, AA := 0, TC := 0, RD := 1, RA := 0, Z := 0, RCode := 0 },
       Questions := 1, AnswerRRs := 0, AuthorityRRs := 0,
       AdditionalRRs := 0 } : DNSHeader).ToByte.take 2 = [0, 1] ∧
      NewDNSHeader [0, 1] = Res.panics ∧
      NewDNSHeader [0, 1] ≠ Res.err GoError.readTruncated := by
  decide

/-- Claim C5 witness: concrete strict prefixes for all three decoders. -/
theorem c5_witness :
    NewDNSHeader
        (({ TxID := 7,
            Flags := { QR := 0, OpCode := 0, AA := 0, TC := 0, RD := 0, RA := 0, Z := 0,
                       RCode := 0 },
            Questions := 0, AnswerRRs := 0, AuthorityRRs := 0,
            AdditionalRRs := 0 } : DNSHeader).ToByte.take 3) = Res.panics ∧
      NewDNSQuestion (({ QuestionName := [97, 98], QuestionType := 1,
                         QuestionClass := 1 } : DNSQuestion).ToByte.take 2) =
        Res.err GoError.readTruncated ∧
      NewDNSQuestion (({ QuestionName := [97, 98], QuestionType := 1,
                         QuestionClass := 1 } : DNSQuestion).ToByte.take 5) = Res.panics ∧
      (∃ bs, ({ Name := [], NamePos := 9, RRType := 1, Class := 1, TTL := 1, RDLength := 4,
                RData := [50, 46, 52, 46, 54, 46, 56] } : DNSResourceRecode).ToByte =
            Res.ok bs ∧
          NewDNSResourceRecode (bs.take 5) = Res.panics) :=
  ⟨c5_prefix_decode.1 _ 3 (by decide),
    (c5_prefix_decode.2.1 _ 2 (by decide) (by decide)).1 (by decide),
    (c5_prefix_decode.2.1 _ 5 (by decide) (by decide)).2 (by decide),
    c5_prefix_decode.2.2 _ 2 4 6 8 5 (by decide) (by decide) (by decide) (by decide)
      (by decide) (by decide) (by decide)⟩

/-- Claim C6: encoding a resource record whose Class is not IN (1)
returns ErrClassNotSupport and produces no bytes. -/
theorem c6_unsupported_class (r : DNSResourceRecode) (h : r.Class ≠ 1) :
    r.ToByte = Res.err GoError.classNotSupport := by
  simp [DNSResourceRecode.ToByte, h]

/-- Claim C6 witness: a class-3 record is rejected. -/
theorem c6_witness :
    ({ Name := [], NamePos := 0, RRType := 5, Class := 3, TTL := 0, RDLength := 0,
       RData := [] } : DNSResourceRecode).ToByte = Res.err GoError.classNotSupport :=
  c6_unsupported_class _ (by decide)

/-- Claim C7 (code bug evaluation): a class-IN record whose RData does
not parse as an IPv4 address is encoded successfully with zero RDATA
bytes (net.ParseIP returns nil, To4 of nil is nil, and binary.Write of
an empty slice succeeds), leaving the emitted RDLength (4) without any
RDATA; no MalformedAddress error exists in the code. -/
theorem c7_malformed_rdata_encode_succeeds :
    parseIPv4To4 [110, 111] = none ∧
      ({ Name := [], NamePos := 5, RRType := 1, Class := 1, TTL := 0, RDLength := 4,
         RData := [110, 111] } : DNSResourceRecode).ToByte =
        Res.ok [192, 5, 0, 1, 0, 1, 0, 0, 0, 0, 0, 4] := by
  decide

/-- Claim C8 (amended): only the resource-record decoder recognizes
compression pointers.  For any two bytes with the top two bits of the
first set, NewDNSResourceRecode takes the pointer branch and extracts
exactly the low 14 bits of the big-endian word as NamePos, reading the
following fixed fields from the bytes after the pointer; NewDNSQuestion
has no pointer branch and instead consumes the first byte as a literal
label length. -/
theorem c8_pointer_recognition (b0 b1 : Nat) (h0 : 192 ≤ b0) (h0x : b0 < 256)
    (h1 : b1 < 256) :
    (∃ r2, NewDNSResourceRecode (b0 :: b1 :: [0, 2, 0, 1, 0, 0, 0, 0, 0, 0]) =
        Res.ok (r2, []) ∧ r2.NamePos = (b0 % 64) * 256 + b1 ∧ r2.RRType = 2) ∧
      NewDNSQuestion [b0, b1] = Res.err GoError.readTruncated := by
  constructor
  · have htag : b0 >>> 6 = 3 := by
      rw [Nat.shiftRight_eq_div_pow]; norm_num; omega
    have heval : NewDNSResourceRecode (b0 :: b1 :: [0, 2, 0, 1, 0, 0, 0, 0, 0, 0]) =
        Res.ok ({ Name := [], NamePos := (((b0 * 256 + b1) <<< 2) % 65536) >>> 2, RRType := 2,
                  Class := 1, TTL := 0, RDLength := 0, RData := [] }, []) := by
      simp [NewDNSResourceRecode, Res.bind, readU16, readU32, readByte, htag]
    refine ⟨_, heval, ?_, rfl⟩
    show (((b0 * 256 + b1) <<< 2) % 65536) >>> 2 = (b0 % 64) * 256 + b1
    rw [Nat.shiftLeft_eq, Nat.shiftRight_eq_div_pow]
    norm_num
    omega
  · have hb0 : ¬ b0 = 0 := by omega
    have h2 : 1 < b0 := by omega
    simp [NewDNSQuestion, readName, readLabels, readLabelsAux, Res.bind, hb0, h2]

set_option maxRecDepth 8192 in
/-- Claim C8 counterexample: the question-name decoder does not
recognize the pointer tag: fed a first byte 0xC0 with enough following
bytes, it consumes the byte as a literal label length of 192 and reads
192 bytes of label data. -/
theorem c8_counterexample_question_pointer :
    NewDNSQuestion (192 :: (List.replicate 192 97 ++ [0, 0, 5, 0, 1])) =
      Res.ok ({ QuestionName := List.replicate 192 97, QuestionType := 5,
                QuestionClass := 1 }, []) := by
  decide

/-- Claim C8 witness: pointer bytes C8 07 decode to NamePos 2055 in the
record decoder and to a truncation error in the question decoder. -/
theorem c8_witness :
    (∃ r2, NewDNSResourceRecode (200 :: 7 :: [0, 2, 0, 1, 0, 0, 0, 0, 0, 0]) =
        Res.ok (r2, []) ∧ r2.NamePos = (200 % 64) * 256 + 7 ∧ r2.RRType = 2) ∧
      NewDNSQuestion [200, 7] = Res.err GoError.readTruncated :=
  c8_pointer_recognition 200 7 (by decide) (by decide) (by decide)

/-- Claim C9 (amended): the label-writing loop emits a one-byte length
(the label length mod 256) followed by the label bytes for every label
of the dot-split, including empty labels, then the zero terminator; in
particular the empty name encodes as two zero bytes (a zero length for
its single empty label, then the terminator), not one. -/
theorem c9_label_encoding (q : DNSQuestion) :
    q.ToByte = encodeSegs (splitOnDot q.QuestionName) ++ u16be q.QuestionType ++
        u16be q.QuestionClass ∧
      (q.QuestionName = [] →
        q.ToByte = 0 :: 0 :: (u16be q.QuestionType ++ u16be q.QuestionClass)) := by
  constructor
  · simp [DNSQuestion.ToByte, writeName_eq_encodeSegs]
  · intro h
    simp [DNSQuestion.ToByte, writeName_eq_encodeSegs, h, splitOnDot, encodeSegs]

/-- Claim C9 counterexample: encoding the empty name emits two zero
bytes before the type/class trailer, not the single zero byte the
claim requires. -/
theorem c9_counterexample_empty_name :
    ({ QuestionName := [], QuestionType := 1, QuestionClass := 1 } : DNSQuestion).ToByte =
        [0, 0, 0, 1, 0, 1] ∧
      ({ QuestionName := [], QuestionType := 1, QuestionClass := 1 } : DNSQuestion).ToByte ≠
        [0, 0, 1, 0, 1] := by
  decide

/-- Claim C9 witness: the empty-name encoding law at a concrete
question. -/
theorem c9_witness :
    ({ QuestionName := [], QuestionType := 1, QuestionClass := 1 } : DNSQuestion).ToByte =
      0 :: 0 :: (u16be 1 ++ u16be 1) :=
  (c9_label_encoding _).2 rfl

/-- Claim C10: for every class-IN record the encoder succeeds, writes
the RDLength field unchanged, and appends as RDATA exactly the bytes of
net.ParseIP(RData).To4() — four bytes when RData parses as an IPv4
address and zero bytes otherwise — with no consistency check between
RDLength and the RDATA bytes actually written. -/
theorem c10_rdata_unchecked (r : DNSResourceRecode) (h : r.Class = 1) :
    ∃ pre, r.ToByte = Res.ok (pre ++ u16be r.RDLength ++ (parseIPv4To4 r.RData).getD []) ∧
      ((∃ bs, parseIPv4To4 r.RData = some bs ∧ bs.length = 4) ∨
        (parseIPv4To4 r.RData = none ∧ (parseIPv4To4 r.RData).getD [] = [])) := by
  refine ⟨(if 0 < r.NamePos then u16be (Nat.lor 49152 r.NamePos)
      else writeName (splitOnDot r.Name)) ++ u16be r.RRType ++ u16be r.Class ++ u32be r.TTL,
      ?_, ?_⟩
  · simp [DNSResourceRecode.ToByte, h, List.append_assoc]
  · cases hp : parseIPv4To4 r.RData with
    | none => exact Or.inr ⟨rfl, by simp⟩
    | some bs => exact Or.inl ⟨bs, rfl, parseIPv4_length _ _ hp⟩

/-- Claim C10 witness: a record with RDLength 9 and unparseable RData
encodes successfully with no RDATA bytes. -/
theorem c10_witness :
    ∃ pre, ({ Name := [], NamePos := 3, RRType := 1, Class := 1, TTL := 7, RDLength := 9,
              RData := [120] } : DNSResourceRecode).ToByte =
      Res.ok (pre ++ u16be 9 ++ (parseIPv4To4 [120]).getD []) ∧
      ((∃ bs, parseIPv4To4 [120] = some bs ∧ bs.length = 4) ∨
        (parseIPv4To4 [120] = none ∧ (parseIPv4To4 [120]).getD [] = [])) :=
  c10_rdata_unchecked _ (by decide)

end Netx
